import Mathlib

/-!
Shallow embedding of `src/tools/benchmark.py`.

The script (its four module inclusions elided) is:

```python
  filename = sys.argv[1]
  if len(sys.argv) > 2:
      params = eval(sys.argv[2])
  else:
      params = {}

  print("package,run,elapsed")
  for i in range(6):
      gc.collect()
      start = time.time()
      pandas.read_csv(filename, **params)
      elapsed = time.time() - start
      print("pandas", ",", i + 1, ",", elapsed, sep="")
```

The embedding turns one process execution into a trace of observable events
(lines printed to standard output, garbage-collection requests, readings of
the wall clock, invocations of the external CSV routine) together with an
exit status.  The environment abstracts everything outside the script:

* `argv` is the full `sys.argv` list, program name included;
* `evalFn` models Python `eval` applied to the second positional argument:
  it either raises (`Except.error`) or yields a value, which is a string-keyed
  mapping (`PyVal.dict`) or some non-mapping object (`PyVal.nonMapping`);
* `clock` gives the value returned by the k-th call of `time.time()`,
  modelled as a rational number (always finite);
* `parseOutcome` tells whether the i-th invocation of `pandas.read_csv`
  returns normally or raises;
* `floatRepr` models Python `str` applied to the elapsed float, as used by
  `print`.

`sys.exit` is never called, so the process exits with status 0 exactly when
no exception escapes (`ExitStatus.normal`), and with a nonzero status and a
traceback otherwise (`ExitStatus.error`).
-/

namespace Benchmark

/-- Result of evaluating the second command-line argument: either a Python
dict with string keys (option name to an opaque textual rendering of the
value) or some non-mapping value, identified by its textual rendering. -/
inductive PyVal where
  | dict (entries : List (String × String))
  | nonMapping (objRepr : String)
  deriving DecidableEq

/-- Observable events of one execution, in program order: a full line written
to standard output, a `gc.collect()` call, a `time.time()` call returning
`t`, or an invocation of `pandas.read_csv` with the given path and keyword
options. -/
inductive Event where
  | printLine (line : String)
  | gcCollect
  | timeCall (t : ℚ)
  | parseInvoke (filename : String) (options : List (String × String))
  deriving DecidableEq

/-- Process exit: `normal` is exit code 0; `error` is an uncaught exception,
which CPython turns into a traceback on stderr and a nonzero exit code. -/
inductive ExitStatus where
  | normal
  | error (msg : String)
  deriving DecidableEq

/-- Everything outside the script that an execution can observe. -/
structure Env where
  argv : List String
  evalFn : String → Except String PyVal
  clock : ℕ → ℚ
  parseOutcome : ℕ → Except String Unit
  floatRepr : ℚ → String

/-- The trace of one execution together with its exit status. -/
structure RunResult where
  trace : List Event
  exit : ExitStatus

/-- Lines written to standard output, extracted from a trace. -/
def linesOf (t : List Event) : List String :=
  t.filterMap fun e =>
    match e with
    | .printLine s => some s
    | _ => none

/-- Lines written to standard output by an execution. -/
def RunResult.lines (r : RunResult) : List String :=
  linesOf r.trace

/-- The header line printed before the loop. -/
def headerLine : String := "package,run,elapsed"

/-- The value of `params`: `eval(sys.argv[2])` when a second positional
argument is present, the empty dict otherwise.  `Except.error` models an
exception raised during evaluation. -/
def paramsOf (env : Env) : Except String PyVal :=
  if 2 < env.argv.length then env.evalFn (env.argv.getD 2 "") else .ok (.dict [])

/-- The elapsed value computed in iteration `i`: the second `time.time()`
reading of that iteration minus the first. -/
def elapsedOf (env : Env) (i : ℕ) : ℚ :=
  env.clock (2 * i + 1) - env.clock (2 * i)

/-- The data line printed by iteration `i`:
`print("pandas", ",", i + 1, ",", elapsed, sep="")`. -/
def rowLine (env : Env) (i : ℕ) : String :=
  "pandas," ++ toString (i + 1) ++ "," ++ env.floatRepr (elapsedOf env i)

/-- The events of a successful iteration `i`, in program order. -/
def okIter (env : Env) (f : String) (entries : List (String × String)) (i : ℕ) :
    List Event :=
  [Event.gcCollect, Event.timeCall (env.clock (2 * i)),
   Event.parseInvoke f entries, Event.timeCall (env.clock (2 * i + 1)),
   Event.printLine (rowLine env i)]

/-- The loop `for i in range(...)`, started at iteration `i` with `rem`
iterations left.  A non-mapping `params` raises a `TypeError` when the
`**`-unpacking of the call is attempted, after `gc.collect()` and the first
`time.time()` but before `pandas.read_csv` runs; a raising parser aborts the
iteration after the invocation, before the second `time.time()` and the
`print`. -/
def runIters (env : Env) (f : String) (pv : PyVal) : ℕ → ℕ → List Event × ExitStatus
  | _, 0 => ([], ExitStatus.normal)
  | i, rem + 1 =>
    match pv with
    | .nonMapping _ =>
        ([Event.gcCollect, Event.timeCall (env.clock (2 * i))],
         ExitStatus.error "TypeError: argument after ** must be a mapping")
    | .dict entries =>
        match env.parseOutcome i with
        | .error e =>
            ([Event.gcCollect, Event.timeCall (env.clock (2 * i)),
              Event.parseInvoke f entries], ExitStatus.error e)
        | .ok _ =>
            (okIter env f entries i ++ (runIters env f pv (i + 1) rem).1,
             (runIters env f pv (i + 1) rem).2)

/-- One whole execution of the script: read `sys.argv[1]` (an `IndexError`
if absent), evaluate the options, print the header, run the six iterations. -/
def runScript (env : Env) : RunResult :=
  match env.argv.get? 1 with
  | none => ⟨[], ExitStatus.error "IndexError: list index out of range"⟩
  | some f =>
      match paramsOf env with
      | .error e => ⟨[], ExitStatus.error e⟩
      | .ok pv =>
          ⟨Event.printLine headerLine :: (runIters env f pv 0 6).1,
           (runIters env f pv 0 6).2⟩

/-- The block of events of `rem` consecutive successful iterations starting
at iteration `i`. -/
def okBlock (env : Env) (f : String) (entries : List (String × String)) :
    ℕ → ℕ → List Event
  | _, 0 => []
  | i, rem + 1 => okIter env f entries i ++ okBlock env f entries (i + 1) rem

/-- The data lines of `rem` consecutive successful iterations starting at
iteration `i`. -/
def rowsFrom (env : Env) : ℕ → ℕ → List String
  | _, 0 => []
  | i, rem + 1 => rowLine env i :: rowsFrom env (i + 1) rem

/-- Recognizer for parser-invocation events. -/
def isParseEvent : Event → Bool
  | .parseInvoke _ _ => true
  | _ => false

/-- Extracting printed lines commutes with trace concatenation. -/
theorem linesOf_append (a b : List Event) : linesOf (a ++ b) = linesOf a ++ linesOf b :=
  List.filterMap_append a b _

/-- A printed line contributes itself to the extracted lines. -/
theorem linesOf_cons_print (s : String) (t : List Event) :
    linesOf (Event.printLine s :: t) = s :: linesOf t := rfl

/-- A successful iteration prints exactly its data line. -/
theorem linesOf_okIter (env : Env) (f : String) (entries : List (String × String))
    (i : ℕ) : linesOf (okIter env f entries i) = [rowLine env i] := rfl

/-- With a non-mapping `params`, the first iteration raises the unpacking
`TypeError` after `gc.collect()` and the first clock reading, and the loop
produces nothing else. -/
theorem runIters_nonMapping (env : Env) (f r : String) (i rem : ℕ) (h : 0 < rem) :
    runIters env f (.nonMapping r) i rem
      = ([Event.gcCollect, Event.timeCall (env.clock (2 * i))],
         ExitStatus.error "TypeError: argument after ** must be a mapping") := by
  obtain ⟨n, rfl⟩ : ∃ n, rem = n + 1 := ⟨rem - 1, by omega⟩
  rfl

/-- A loop on a dict that exits normally consists exactly of its successful
iteration blocks. -/
theorem runIters_trace_of_normal (env : Env) (f : String)
    (entries : List (String × String)) :
    ∀ rem i, (runIters env f (.dict entries) i rem).2 = ExitStatus.normal →
      (runIters env f (.dict entries) i rem).1 = okBlock env f entries i rem := by
  intro rem
  induction rem with
  | zero => intro i _; rfl
  | succ n ih =>
      intro i h
      cases hp : env.parseOutcome i with
      | error e => rw [runIters] at h; simp [hp] at h
      | ok u =>
          rw [runIters] at h ⊢
          simp only [hp] at h ⊢
          rw [okBlock, ih (i + 1) h]

/-- A loop with at least one iteration left can exit normally only when
`params` is a dict. -/
theorem runIters_normal_dict (env : Env) (f : String) (pv : PyVal) (rem i : ℕ)
    (hrem : 0 < rem) (h : (runIters env f pv i rem).2 = ExitStatus.normal) :
    ∃ entries, pv = PyVal.dict entries := by
  cases pv with
  | dict entries => exact ⟨entries, rfl⟩
  | nonMapping r =>
      rw [runIters_nonMapping env f r i rem hrem] at h
      simp at h

/-- The lines of a block of successful iterations are its data lines. -/
theorem linesOf_okBlock (env : Env) (f : String) (entries : List (String × String)) :
    ∀ rem i, linesOf (okBlock env f entries i rem) = rowsFrom env i rem := by
  intro rem
  induction rem with
  | zero => intro i; rfl
  | succ n ih =>
      intro i
      rw [okBlock, rowsFrom, linesOf_append, linesOf_okIter, ih (i + 1)]
      rfl

/-- Whatever happens inside the loop, the printed lines are the data lines of
some initial run of `m ≤ rem` completed iterations. -/
theorem runIters_lines (env : Env) (f : String) (pv : PyVal) :
    ∀ rem i, ∃ m, m ≤ rem ∧ linesOf (runIters env f pv i rem).1 = rowsFrom env i m := by
  intro rem
  induction rem with
  | zero => intro i; exact ⟨0, Nat.le_refl 0, rfl⟩
  | succ n ih =>
      intro i
      cases pv with
      | nonMapping r =>
          exact ⟨0, Nat.zero_le _, by
            rw [runIters_nonMapping env f r i (n + 1) (Nat.succ_pos n)]; rfl⟩
      | dict entries =>
          cases hp : env.parseOutcome i with
          | error e =>
              refine ⟨0, Nat.zero_le _, ?_⟩
              rw [runIters]
              simp only [hp]
              rfl
          | ok u =>
              obtain ⟨m, hm, hl⟩ := ih (i + 1)
              refine ⟨m + 1, by omega, ?_⟩
              rw [runIters]
              simp only [hp]
              rw [linesOf_append, linesOf_okIter, hl, rowsFrom]
              rfl

/-- Indexing into the data lines of `m` completed iterations. -/
theorem rowsFrom_get (env : Env) :
    ∀ m i j, (rowsFrom env i m).get? j
      = if j < m then some (rowLine env (i + j)) else none := by
  intro m
  induction m with
  | zero => intro i j; simp [rowsFrom]
  | succ n ih =>
      intro i j
      cases j with
      | zero => simp [rowsFrom]
      | succ k =>
          rw [rowsFrom, List.get?_cons_succ, ih (i + 1) k]
          have hik : i + 1 + k = i + (k + 1) := by omega
          rw [hik]
          simp [Nat.succ_lt_succ_iff]

/-- There are `m` data lines for `m` completed iterations. -/
theorem rowsFrom_length (env : Env) :
    ∀ m i, (rowsFrom env i m).length = m := by
  intro m
  induction m with
  | zero => intro i; rfl
  | succ n ih => intro i; rw [rowsFrom, List.length_cons, ih (i + 1)]

/-- An execution that exits normally read a filename from `argv[1]`,
evaluated the options to a dict, and its trace is the header print followed
by six successful iteration blocks. -/
theorem runScript_normal (env : Env) (h : (runScript env).exit = ExitStatus.normal) :
    ∃ f entries, env.argv.get? 1 = some f ∧ paramsOf env = .ok (.dict entries) ∧
      (runScript env).trace = Event.printLine headerLine :: okBlock env f entries 0 6 ∧
      (runScript env).lines = headerLine :: rowsFrom env 0 6 := by
  cases hf : env.argv.get? 1 with
  | none => rw [runScript, hf] at h; simp at h
  | some f =>
      cases hpr : paramsOf env with
      | error e => rw [runScript, hf, hpr] at h; simp at h
      | ok pv =>
          have hexit : (runIters env f pv 0 6).2 = ExitStatus.normal := by
            rw [runScript, hf, hpr] at h
            simpa using h
          obtain ⟨entries, rfl⟩ := runIters_normal_dict env f pv 6 0 (by omega) hexit
          have htr : (runScript env).trace
              = Event.printLine headerLine :: okBlock env f entries 0 6 := by
            rw [runScript, hf, hpr]
            show Event.printLine headerLine :: (runIters env f (.dict entries) 0 6).1
              = Event.printLine headerLine :: okBlock env f entries 0 6
            rw [runIters_trace_of_normal env f entries 6 0 hexit]
          refine ⟨f, entries, rfl, rfl, htr, ?_⟩
          rw [RunResult.lines, htr, linesOf_cons_print, linesOf_okBlock]

/-- Whatever happens, standard output is either empty or the header followed
by the data lines of at most six completed iterations. -/
theorem runScript_lines_shape (env : Env) :
    (runScript env).lines = [] ∨
      ∃ m, m ≤ 6 ∧ (runScript env).lines = headerLine :: rowsFrom env 0 m := by
  cases hf : env.argv.get? 1 with
  | none => left; rw [RunResult.lines, runScript, hf]; rfl
  | some f =>
      cases hpr : paramsOf env with
      | error e => left; rw [RunResult.lines, runScript, hf, hpr]; rfl
      | ok pv =>
          right
          obtain ⟨m, hm, hl⟩ := runIters_lines env f pv 6 0
          refine ⟨m, hm, ?_⟩
          rw [RunResult.lines, runScript, hf, hpr]
          show linesOf (Event.printLine headerLine :: (runIters env f pv 0 6).1)
            = headerLine :: rowsFrom env 0 m
          rw [linesOf_cons_print, hl]

/-- Any line at position `j + 1` of standard output is the data line of
iteration `j`. -/
theorem lines_get_row (env : Env) (j : ℕ) (s : String)
    (h : (runScript env).lines.get? (j + 1) = some s) : s = rowLine env j := by
  rcases runScript_lines_shape env with h0 | ⟨m, hm, hl⟩
  · rw [h0] at h; simp at h
  · rw [hl, List.get?_cons_succ, rowsFrom_get env m 0 j] at h
    by_cases hj : j < m
    · rw [if_pos hj] at h
      have h' := Option.some.inj h
      rw [← h', Nat.zero_add]
    · rw [if_neg hj] at h
      cases h

/-- Every parser invocation in a loop on a dict uses the fixed filename and
the fixed option entries. -/
theorem parseInvoke_mem_runIters (env : Env) (f0 : String)
    (entries : List (String × String)) :
    ∀ rem i f opts, Event.parseInvoke f opts ∈ (runIters env f0 (.dict entries) i rem).1 →
      f = f0 ∧ opts = entries := by
  intro rem
  induction rem with
  | zero => intro i f opts h; rw [runIters] at h; simp at h
  | succ n ih =>
      intro i f opts h
      cases hp : env.parseOutcome i with
      | error e =>
          rw [runIters] at h
          simp only [hp] at h
          simpa using h
      | ok u =>
          rw [runIters] at h
          simp only [hp] at h
          rw [okIter, List.mem_append] at h
          rcases h with h | h
          · simpa using h
          · exact ih (i + 1) f opts h

/-- Any iteration's block can be carved out of a block of successful
iterations that contains it. -/
theorem okBlock_extract (env : Env) (f : String) (entries : List (String × String)) :
    ∀ rem j i, i < rem → ∃ pre suf,
      okBlock env f entries j rem = pre ++ (okIter env f entries (j + i) ++ suf) := by
  intro rem
  induction rem with
  | zero => intro j i h; omega
  | succ n ih =>
      intro j i h
      cases i with
      | zero =>
          refine ⟨[], okBlock env f entries (j + 1) n, ?_⟩
          rw [okBlock]
          simp
      | succ k =>
          obtain ⟨pre, suf, hps⟩ := ih (j + 1) k (by omega)
          refine ⟨okIter env f entries j ++ pre, suf, ?_⟩
          have hjk : j + 1 + k = j + (k + 1) := by omega
          rw [okBlock, hps, hjk, List.append_assoc]

/-- A block of `rem` successful iterations invokes the parser exactly `rem`
times, with the same arguments each time. -/
theorem filter_parse_okBlock (env : Env) (f : String)
    (entries : List (String × String)) :
    ∀ rem i, List.filter isParseEvent (okBlock env f entries i rem)
      = List.replicate rem (Event.parseInvoke f entries) := by
  intro rem
  induction rem with
  | zero => intro i; rfl
  | succ n ih =>
      intro i
      rw [okBlock, List.filter_append, ih (i + 1), List.replicate_succ]
      rfl

/-- If the first `k` parses succeed and parse `k` raises `e`, the loop stops
right there: `k` completed iteration blocks, then the aborted iteration's
`gc.collect()`, start-clock reading and parser invocation, and the exception
escapes. -/
theorem runIters_error_at (env : Env) (f : String) (entries : List (String × String)) :
    ∀ k i rem, k < rem →
      (∀ j, j < k → env.parseOutcome (i + j) = .ok ()) →
      ∀ e, env.parseOutcome (i + k) = .error e →
      runIters env f (.dict entries) i rem
        = (okBlock env f entries i k
            ++ [Event.gcCollect, Event.timeCall (env.clock (2 * (i + k))),
                Event.parseInvoke f entries],
           ExitStatus.error e) := by
  intro k
  induction k with
  | zero =>
      intro i rem hrem hok e he
      obtain ⟨n, rfl⟩ : ∃ n, rem = n + 1 := ⟨rem - 1, by omega⟩
      have he' : env.parseOutcome i = .error e := by simpa using he
      rw [runIters]
      simp only [he']
      simp [okBlock]
  | succ k ih =>
      intro i rem hrem hok e he
      obtain ⟨n, rfl⟩ : ∃ n, rem = n + 1 := ⟨rem - 1, by omega⟩
      have h0 : env.parseOutcome i = .ok () := by simpa using hok 0 (by omega)
      have hrec := ih (i + 1) n (by omega)
        (fun j hj => by
          have h' := hok (j + 1) (by omega)
          rwa [show i + (j + 1) = i + 1 + j by omega] at h') e
        (by rwa [show i + (k + 1) = i + 1 + k by omega] at he)
      rw [runIters]
      simp only [h0, hrec]
      rw [okBlock]
      have h2 : 2 * (i + 1 + k) = 2 * (i + (k + 1)) := by omega
      simp [h2, List.append_assoc]

/-- A typical benign environment: two command-line entries (program name and
CSV path), a clock frozen at 0, a parser that always succeeds, and a float
rendering that is therefore constantly `"0.0"`. -/
def sampleEnv : Env :=
  { argv := ["benchmark.py", "a.csv"]
    evalFn := fun _ => .ok (.dict [])
    clock := fun _ => 0
    parseOutcome := fun _ => .ok ()
    floatRepr := fun _ => "0.0" }

/-- C1: every execution that completes normally (exit status 0) writes
exactly 7 lines to standard output: the header `package,run,elapsed`
followed by six data rows, where the row at output position `j + 1` carries
run index `j + 1`, so the run indices are 1 through 6 in strictly
increasing order. -/
theorem c1_normal_output (env : Env) (h : (runScript env).exit = ExitStatus.normal) :
    (runScript env).lines.length = 7 ∧
    (runScript env).lines.get? 0 = some "package,run,elapsed" ∧
    ∀ j, j < 6 → (runScript env).lines.get? (j + 1)
      = some ("pandas," ++ toString (j + 1) ++ "," ++ env.floatRepr (elapsedOf env j)) := by
  obtain ⟨f, entries, hf, hpr, htr, hl⟩ := runScript_normal env h
  refine ⟨?_, ?_, ?_⟩
  · rw [hl, List.length_cons, rowsFrom_length]
  · rw [hl]; rfl
  · intro j hj
    rw [hl, List.get?_cons_succ, rowsFrom_get env 6 0 j, if_pos hj, Nat.zero_add]
    rfl

/-- Witness for C1 at the concrete benign environment. -/
theorem c1_normal_output_witness :
    (runScript sampleEnv).lines.length = 7 ∧
    (runScript sampleEnv).lines.get? 1
      = some ("pandas," ++ toString (0 + 1) ++ ","
          ++ sampleEnv.floatRepr (elapsedOf sampleEnv 0)) :=
  ⟨(c1_normal_output sampleEnv rfl).1,
   (c1_normal_output sampleEnv rfl).2.2 0 (by decide)⟩

/-- C3: every data row on standard output is the exact comma-separated
concatenation of the constant package identifier, the 1-based run number
and the rendering of the raw elapsed difference of the iteration's two
clock readings — no extra whitespace and no reformatting of that value. -/
theorem c3_row_format (env : Env) (j : ℕ) (s : String)
    (h : (runScript env).lines.get? (j + 1) = some s) :
    s = "pandas," ++ toString (j + 1) ++ "," ++ env.floatRepr (elapsedOf env j) :=
  lines_get_row env j s h

/-- Witness for C3 at the concrete benign environment. -/
theorem c3_row_format_witness :
    "pandas,1,0.0" = "pandas," ++ toString (0 + 1) ++ ","
      ++ sampleEnv.floatRepr (elapsedOf sampleEnv 0) :=
  c3_row_format sampleEnv 0 "pandas,1,0.0" rfl

/-- C6: with exactly one positional argument (so `sys.argv` has length 2),
every parser invocation uses the file path from `argv[1]` and the empty
options mapping, i.e. no keyword arguments at all. -/
theorem c6_default_empty_options (env : Env) (h : env.argv.length = 2) :
    ∀ f opts, Event.parseInvoke f opts ∈ (runScript env).trace →
      env.argv.get? 1 = some f ∧ opts = [] := by
  intro f opts hmem
  have hpr : paramsOf env = .ok (.dict []) := by
    rw [paramsOf, if_neg (by omega)]
  cases hf : env.argv.get? 1 with
  | none =>
      rw [runScript] at hmem
      simp only [hf] at hmem
      simp at hmem
  | some f0 =>
      rw [runScript] at hmem
      simp only [hf, hpr] at hmem
      have hmem' : Event.parseInvoke f opts ∈ (runIters env f0 (.dict []) 0 6).1 := by
        simpa using hmem
      obtain ⟨h1, h2⟩ := parseInvoke_mem_runIters env f0 [] 6 0 f opts hmem'
      exact ⟨by rw [h1], h2⟩

/-- Witness for C6 at the concrete benign environment. -/
theorem c6_default_empty_options_witness :
    sampleEnv.argv.get? 1 = some "a.csv" ∧ ([] : List (String × String)) = [] :=
  c6_default_empty_options sampleEnv rfl "a.csv" [] (by decide)

/-- C10: with no positional argument, or with a second argument whose
evaluation raises, the process dies before anything is written to standard
output — not even the header line — and exits abnormally, because both
`sys.argv[1]` and `eval(sys.argv[2])` run before the header `print`. -/
theorem c10_fail_before_header (env : Env)
    (h : env.argv.length ≤ 1 ∨
         (2 < env.argv.length ∧ ∃ e, env.evalFn (env.argv.getD 2 "") = Except.error e)) :
    (runScript env).trace = [] ∧ (runScript env).exit ≠ ExitStatus.normal := by
  rcases h with h | ⟨hlen, e, he⟩
  · have hf : env.argv.get? 1 = none := List.get?_eq_none.mpr (by omega)
    simp only [runScript, hf]
    exact ⟨trivial, by simp⟩
  · have hpr : paramsOf env = Except.error e := by
      rw [paramsOf, if_pos hlen, he]
    cases hf : env.argv.get? 1 with
    | none =>
        simp only [runScript, hf]
        exact ⟨trivial, by simp⟩
    | some f =>
        simp only [runScript, hf, hpr]
        exact ⟨trivial, by simp⟩

/-- An environment with no positional argument at all. -/
def noArgEnv : Env :=
  { argv := ["benchmark.py"]
    evalFn := fun _ => .ok (.dict [])
    clock := fun _ => 0
    parseOutcome := fun _ => .ok ()
    floatRepr := fun _ => "0.0" }

/-- Witness for C10 at an environment with a missing first argument. -/
theorem c10_fail_before_header_witness :
    (runScript noArgEnv).trace = [] ∧ (runScript noArgEnv).exit ≠ ExitStatus.normal :=
  c10_fail_before_header noArgEnv (Or.inl (by decide))

/-- C2: a malformed options argument — a present second argument whose
evaluation does not yield a mapping — makes the execution fail abnormally,
the parser is never invoked, and no data row is printed: standard output is
empty (evaluation raised) or just the header (a non-mapping value raising
`TypeError` at the `**`-unpacking of the call). -/
theorem c2_malformed_options (env : Env) (hlen : 2 < env.argv.length)
    (hbad : ∀ entries, paramsOf env ≠ Except.ok (PyVal.dict entries)) :
    (runScript env).exit ≠ ExitStatus.normal ∧
    (∀ f opts, Event.parseInvoke f opts ∉ (runScript env).trace) ∧
    ((runScript env).lines = [] ∨ (runScript env).lines = [headerLine]) := by
  cases hf : env.argv.get? 1 with
  | none =>
      refine ⟨?_, ?_, ?_⟩
      · simp only [runScript, hf]; simp
      · intro f opts; simp only [runScript, hf]; simp
      · left; simp only [RunResult.lines, runScript, hf]; rfl
  | some f0 =>
      cases hpr : paramsOf env with
      | error e =>
          refine ⟨?_, ?_, ?_⟩
          · simp only [runScript, hf, hpr]; simp
          · intro f opts; simp only [runScript, hf, hpr]; simp
          · left; simp only [RunResult.lines, runScript, hf, hpr]; rfl
      | ok pv =>
          cases pv with
          | dict entries => exact absurd hpr (hbad entries)
          | nonMapping r =>
              have h6 := runIters_nonMapping env f0 r 0 6 (by omega)
              refine ⟨?_, ?_, ?_⟩
              · simp only [runScript, hf, hpr, h6]; simp
              · intro f opts; simp only [runScript, hf, hpr, h6]; simp
              · right; simp only [RunResult.lines, runScript, hf, hpr, h6]; rfl

/-- An environment whose second positional argument fails to evaluate. -/
def badOptsEnv : Env :=
  { argv := ["benchmark.py", "a.csv", "not-a-dict"]
    evalFn := fun _ => .error "SyntaxError: invalid syntax"
    clock := fun _ => 0
    parseOutcome := fun _ => .ok ()
    floatRepr := fun _ => "0.0" }

/-- Witness for C2 at an environment with an unevaluable second argument. -/
theorem c2_malformed_options_witness :
    (runScript badOptsEnv).exit ≠ ExitStatus.normal ∧
    Event.parseInvoke "a.csv" [] ∉ (runScript badOptsEnv).trace ∧
    ((runScript badOptsEnv).lines = [] ∨ (runScript badOptsEnv).lines = [headerLine]) := by
  have h := c2_malformed_options badOptsEnv (by decide)
    (fun entries hcontra => by
      rw [show paramsOf badOptsEnv = Except.error "SyntaxError: invalid syntax" from rfl]
        at hcontra
      exact Except.noConfusion hcontra)
  exact ⟨h.1, h.2.1 "a.csv" [], h.2.2⟩

/-- C4: in a normally completing execution, every one of the six repetitions
performs, consecutively and in this order: a `gc.collect()`, the start clock
reading, the parser invocation with the fixed path and unpacked options, the
end clock reading, and the printing of a data row whose elapsed value is
exactly the end reading minus the start reading. -/
theorem c4_iteration_order (env : Env) (h : (runScript env).exit = ExitStatus.normal) :
    ∃ f entries, env.argv.get? 1 = some f ∧
      ∀ i, i < 6 → ∃ pre suf, (runScript env).trace
        = pre ++ ([Event.gcCollect, Event.timeCall (env.clock (2 * i)),
                   Event.parseInvoke f entries, Event.timeCall (env.clock (2 * i + 1)),
                   Event.printLine ("pandas," ++ toString (i + 1) ++ ","
                      ++ env.floatRepr (env.clock (2 * i + 1) - env.clock (2 * i)))]
             ++ suf) := by
  obtain ⟨f, entries, hf, hpr, htr, hl⟩ := runScript_normal env h
  refine ⟨f, entries, hf, ?_⟩
  intro i hi
  obtain ⟨pre, suf, hps⟩ := okBlock_extract env f entries 6 0 i hi
  refine ⟨Event.printLine headerLine :: pre, suf, ?_⟩
  rw [htr, hps, Nat.zero_add]
  rfl

/-- Witness for C4 at the concrete benign environment. -/
theorem c4_iteration_order_witness :
    ∃ f entries, sampleEnv.argv.get? 1 = some f ∧
      ∀ i, i < 6 → ∃ pre suf, (runScript sampleEnv).trace
        = pre ++ ([Event.gcCollect, Event.timeCall (sampleEnv.clock (2 * i)),
                   Event.parseInvoke f entries,
                   Event.timeCall (sampleEnv.clock (2 * i + 1)),
                   Event.printLine ("pandas," ++ toString (i + 1) ++ ","
                      ++ sampleEnv.floatRepr
                           (sampleEnv.clock (2 * i + 1) - sampleEnv.clock (2 * i)))]
             ++ suf) :=
  c4_iteration_order sampleEnv rfl

/-- C5: nothing is caught or retried: if the first `k` repetitions succeed
and repetition `k` raises, the process dies with that very exception, the
remaining repetitions never run, and standard output holds exactly the
header plus the `k` completed, fully formed data rows. -/
theorem c5_fail_fast (env : Env) (f : String) (entries : List (String × String))
    (k : ℕ) (e : String) (hf : env.argv.get? 1 = some f)
    (hpr : paramsOf env = .ok (.dict entries)) (hk : k < 6)
    (hok : ∀ j, j < k → env.parseOutcome j = .ok ())
    (he : env.parseOutcome k = .error e) :
    (runScript env).exit = ExitStatus.error e ∧
    (runScript env).lines = headerLine :: rowsFrom env 0 k := by
  have herr := runIters_error_at env f entries k 0 6 hk
      (fun j hj => by simpa using hok j hj) e (by simpa using he)
  constructor
  · simp only [runScript, hf, hpr, herr]
  · simp only [RunResult.lines, runScript, hf, hpr, herr]
    rw [linesOf_cons_print, linesOf_append, linesOf_okBlock]
    simp [linesOf]

/-- An environment where the third parse raises (say the file disappeared). -/
def failEnv : Env :=
  { argv := ["benchmark.py", "missing.csv"]
    evalFn := fun _ => .ok (.dict [])
    clock := fun _ => 0
    parseOutcome := fun i => if i < 2 then .ok () else .error "FileNotFoundError"
    floatRepr := fun _ => "0.0" }

/-- Witness for C5: two successful repetitions, then a raising parse. -/
theorem c5_fail_fast_witness :
    (runScript failEnv).exit = ExitStatus.error "FileNotFoundError" ∧
    (runScript failEnv).lines = headerLine :: rowsFrom failEnv 0 2 :=
  c5_fail_fast failEnv "missing.csv" [] 2 "FileNotFoundError" rfl rfl (by decide)
    (fun j hj => by
      show (if j < 2 then Except.ok () else Except.error "FileNotFoundError") = Except.ok ()
      rw [if_pos hj])
    rfl

/-- C7: in a normally completing execution, the invocation parameters are
fixed once — `argv[1]` and the evaluated options — and the parser is invoked
exactly six times, each time with those same two inputs. -/
theorem c7_identical_invocations (env : Env)
    (h : (runScript env).exit = ExitStatus.normal) :
    ∃ f entries, env.argv.get? 1 = some f ∧
      paramsOf env = .ok (.dict entries) ∧
      List.filter isParseEvent (runScript env).trace
        = List.replicate 6 (Event.parseInvoke f entries) := by
  obtain ⟨f, entries, hf, hpr, htr, hl⟩ := runScript_normal env h
  refine ⟨f, entries, hf, hpr, ?_⟩
  rw [htr]
  have hhd : List.filter isParseEvent (Event.printLine headerLine :: okBlock env f entries 0 6)
      = List.filter isParseEvent (okBlock env f entries 0 6) := rfl
  rw [hhd, filter_parse_okBlock]

/-- Witness for C7 at the concrete benign environment. -/
theorem c7_identical_invocations_witness :
    ∃ f entries, sampleEnv.argv.get? 1 = some f ∧
      paramsOf sampleEnv = .ok (.dict entries) ∧
      List.filter isParseEvent (runScript sampleEnv).trace
        = List.replicate 6 (Event.parseInvoke f entries) :=
  c7_identical_invocations sampleEnv rfl

/-- C9: two normally completing executions with the same command line and
the same evaluation behavior agree on everything but timing: same number of
output lines, the same first line, and at every data position a row with the
same package identifier and the same run number, differing at most in the
elapsed field. -/
theorem c9_deterministic_structure (env1 env2 : Env)
    (hargv : env1.argv = env2.argv) (heval : env1.evalFn = env2.evalFn)
    (h1 : (runScript env1).exit = ExitStatus.normal)
    (h2 : (runScript env2).exit = ExitStatus.normal) :
    (runScript env1).lines.length = (runScript env2).lines.length ∧
    (runScript env1).lines.get? 0 = (runScript env2).lines.get? 0 ∧
    ∀ j, j < 6 → ∃ s1 s2,
      (runScript env1).lines.get? (j + 1)
        = some ("pandas," ++ toString (j + 1) ++ "," ++ s1) ∧
      (runScript env2).lines.get? (j + 1)
        = some ("pandas," ++ toString (j + 1) ++ "," ++ s2) := by
  obtain ⟨f1, e1, hf1, hpr1, htr1, hl1⟩ := runScript_normal env1 h1
  obtain ⟨f2, e2, hf2, hpr2, htr2, hl2⟩ := runScript_normal env2 h2
  refine ⟨?_, ?_, ?_⟩
  · rw [hl1, hl2, List.length_cons, List.length_cons, rowsFrom_length, rowsFrom_length]
  · rw [hl1, hl2]; rfl
  · intro j hj
    refine ⟨env1.floatRepr (elapsedOf env1 j), env2.floatRepr (elapsedOf env2 j), ?_, ?_⟩
    · rw [hl1, List.get?_cons_succ, rowsFrom_get env1 6 0 j, if_pos hj, Nat.zero_add]
      rfl
    · rw [hl2, List.get?_cons_succ, rowsFrom_get env2 6 0 j, if_pos hj, Nat.zero_add]
      rfl

/-- Witness for C9: the benign environment compared with itself. -/
theorem c9_deterministic_structure_witness :
    (runScript sampleEnv).lines.length = (runScript sampleEnv).lines.length ∧
    (runScript sampleEnv).lines.get? 0 = (runScript sampleEnv).lines.get? 0 ∧
    ∀ j, j < 6 → ∃ s1 s2,
      (runScript sampleEnv).lines.get? (j + 1)
        = some ("pandas," ++ toString (j + 1) ++ "," ++ s1) ∧
      (runScript sampleEnv).lines.get? (j + 1)
        = some ("pandas," ++ toString (j + 1) ++ "," ++ s2) :=
  c9_deterministic_structure sampleEnv sampleEnv rfl rfl rfl rfl

/-- An environment whose wall clock steps backwards between the two readings
of the first repetition, as `time.time()` may under clock adjustment. -/
def negClockEnv : Env :=
  { argv := ["benchmark.py", "a.csv"]
    evalFn := fun _ => .ok (.dict [])
    clock := fun k => if k = 0 then 1 else 0
    parseOutcome := fun _ => .ok ()
    floatRepr := fun _ => "-1.0" }

/-- C8 counterexample: with a wall clock that steps backwards between the
two readings of the first repetition, the execution completes normally and
the first data row is emitted with elapsed value `-1 < 0` — so emitted
elapsed values are not non-negative regardless of the time source. -/
theorem c8_counterexample :
    (runScript negClockEnv).exit = ExitStatus.normal ∧
    (runScript negClockEnv).lines.get? 1
      = some ("pandas,1," ++ negClockEnv.floatRepr (elapsedOf negClockEnv 0)) ∧
    elapsedOf negClockEnv 0 < 0 :=
  ⟨rfl, rfl, by norm_num [elapsedOf, negClockEnv]⟩

/-- C8 amended: elapsed values are finite by construction (differences of
two clock readings), and every elapsed value is non-negative provided the
time source is monotone, i.e. successive `time.time()` readings never
decrease; the code computes a bare difference, so without monotonicity a
negative elapsed value is possible. -/
theorem c8_elapsed_nonneg_of_monotone (env : Env)
    (hmono : ∀ k, env.clock k ≤ env.clock (k + 1)) (i : ℕ) :
    0 ≤ elapsedOf env i := by
  have h := hmono (2 * i)
  rw [elapsedOf]
  linarith

/-- Witness for the amended C8 at the benign environment with a constant
clock. -/
theorem c8_elapsed_nonneg_of_monotone_witness : 0 ≤ elapsedOf sampleEnv 0 :=
  c8_elapsed_nonneg_of_monotone sampleEnv (fun _ => le_refl 0) 0

end Benchmark
